import Mathlib

/-!
Verification of the shop-uploader repository (`csv-uploader.py`).

The Python source is shallowly embedded: rows and Python dicts become
insertion-ordered association lists (`List (String × String)`), the string
builtins `str.strip` / `str.lower` / single-character `str.replace` /
`str.split` become total functions on `List Char` / `String`, CPython's
`float` parser is modelled on plain decimal literals (`pyFloat?`), and the
effectful reconciliation procedure `process_series` becomes a pure function
over an explicit remote-catalog state together with a trace of the remote
calls it issues; remote-call failures are injected through an oracle
(`Oracle`), mirroring the Python `try/except` structure call by call.
-/

namespace ShopUploader

/-! ### Python string primitives -/

/-- Whitespace recognised by Python's `str.strip` (ASCII subset, which is all
the repository's data contains). -/
def pySpace (c : Char) : Bool :=
  c = ' ' || c = '\t' || c = '\n' || c = '\r'

/-- Python `str.strip()`: drop leading and trailing whitespace. -/
def pyStrip (s : String) : String :=
  (((s.data.dropWhile pySpace).reverse.dropWhile pySpace).reverse).asString

/-- Python `str.lower()` (ASCII). -/
def pyLower (s : String) : String :=
  (s.data.map Char.toLower).asString

/-- Python `s.replace(a, b)` for one-character `a`, `b` — the only form the
source uses with a non-empty replacement. -/
def pyReplaceChar (s : String) (a b : Char) : String :=
  (s.data.map (fun c => if c = a then b else c)).asString

/-- Python `s.replace(a, '')` for a one-character `a` (used to strip `,`,
`(`, `)`). -/
def pyRemoveChar (s : String) (a : Char) : String :=
  (s.data.filter (fun c => c ≠ a)).asString

/-- Python `c in s` for a single character. -/
def pyContains (s : String) (a : Char) : Bool :=
  s.data.any (fun c => c = a)

/-- Python `s.split(sep)` for a one-character separator, on the underlying
character list. `split` always returns at least one piece. -/
def pySplitCh (sep : Char) : List Char → List (List Char)
  | [] => [[]]
  | c :: rest =>
    let r := pySplitCh sep rest
    if c = sep then [] :: r
    else
      match r with
      | [] => [[c]]
      | h :: t => (c :: h) :: t

/-- Does `needle` occur at the start of `hay`? (helper for substring tests) -/
def startsWithL : List Char → List Char → Bool
  | _, [] => true
  | [], _ :: _ => false
  | h :: hs, n :: ns => h = n && startsWithL hs ns

/-- Python `needle in hay` substring containment. -/
def containsSub : List Char → List Char → Bool
  | [], needle => needle.isEmpty
  | h :: rest, needle => startsWithL (h :: rest) needle || containsSub rest needle

/-- Numeric value of a list of decimal digits. -/
def digitsVal (cs : List Char) : Nat :=
  cs.foldl (fun a c => a * 10 + (c.toNat - 48)) 0

/-- CPython's `float(s)` on plain decimal literals: optional sign, then
either `digits`, `digits.digits?`, or `.digits`; anything else raises
`ValueError` (`none`). The value is kept exact as a scaled decimal:
`some (n, k)` denotes the number `n / 10 ^ k` (see `decVal`) — the
repository only ever compares the result with `0`, where only the sign of
`n` matters and float rounding is irrelevant. (Specials such as
`inf`/`nan`/exponents do not occur in the data and are treated as
unparsable.) -/
def pyFloat? (s : String) : Option (Int × Nat) :=
  let (sign, cs) :=
    match s.data with
    | '-' :: rest => ((-1 : Int), rest)
    | '+' :: rest => ((1 : Int), rest)
    | cs => ((1 : Int), cs)
  let intPart := cs.takeWhile Char.isDigit
  let rest := cs.dropWhile Char.isDigit
  match rest with
  | [] =>
    if intPart.isEmpty then none
    else some (sign * (digitsVal intPart : Int), 0)
  | '.' :: rest2 =>
    let fracPart := rest2.takeWhile Char.isDigit
    let rest3 := rest2.dropWhile Char.isDigit
    if rest3.isEmpty && !(intPart.isEmpty && fracPart.isEmpty) then
      some (sign * ((digitsVal intPart * 10 ^ fracPart.length + digitsVal fracPart : Nat) : Int),
        fracPart.length)
    else none
  | _ => none

/-- The rational value denoted by a scaled decimal `(n, k)`: `n / 10 ^ k`. -/
def decVal (d : Int × Nat) : Rat :=
  (d.1 : Rat) / ((10 ^ d.2 : Nat) : Rat)

/-- A parsed value is positive exactly when its numerator is, so comparing
the numerator with `0` is a faithful rendering of Python's `> 0` / `<= 0`
tests on the float. -/
theorem decVal_pos (d : Int × Nat) : 0 < decVal d ↔ 0 < d.1 := by
  have h10 : (0 : Rat) < ((10 ^ d.2 : Nat) : Rat) := by
    positivity
  constructor
  · intro h
    by_contra hle
    push_neg at hle
    have : decVal d ≤ 0 := by
      unfold decVal
      apply div_nonpos_of_nonpos_of_nonneg
      · exact_mod_cast hle
      · exact le_of_lt h10
    exact absurd h (not_lt_of_le this)
  · intro h
    unfold decVal
    apply div_pos _ h10
    exact_mod_cast h

/-! ### Python dicts as insertion-ordered association lists -/

/-- A CSV row / Python dict: insertion-ordered association list with unique
keys (the invariant Python dicts maintain by construction). -/
abbrev Row := List (String × String)

/-- Python `d[k]` read / `d.get(k)`: first (and, for dict-built lists, only)
binding of `k`. -/
def alookup {α : Type} (d : List (String × α)) (k : String) : Option α :=
  (d.find? (fun kv => kv.1 = k)).map (fun kv => kv.2)

/-- Python `d.get(k)` on a row. -/
def pyGet (row : Row) (k : String) : Option String :=
  alookup row k

/-- Python dict assignment `d[k] = v`: overwrite in place (keeping the key's
original position) or append a fresh key at the end. -/
def dinsert {α : Type} : List (String × α) → String → α → List (String × α)
  | [], k, v => [(k, v)]
  | e :: d, k, v => if e.1 = k then (k, v) :: d else e :: dinsert d k v

/-- Python truthiness of `d.get(k)` for string-valued dicts: present and
non-empty. -/
def truthy (o : Option String) : Bool :=
  match o with
  | none => false
  | some s => s ≠ ""

/-! ### `parse_csv` (row cleaning and filtering; file I/O elided) -/

/-- One iteration of `parse_csv`'s dict comprehension
`{k.strip(): v.strip() for k, v in row.items() if k and k.strip()}`. -/
def cleanRow (row : Row) : Row :=
  row.foldl
    (fun d kv => if kv.1 ≠ "" && pyStrip kv.1 ≠ "" then dinsert d (pyStrip kv.1) (pyStrip kv.2) else d)
    []

/-- `parse_csv`, applied to the already-read rows of the file: clean each
row, keep it when `cleaned_row.get('Product Code') or
cleaned_row.get('Product Series Code')` is truthy. -/
def parse_csv (rows : List Row) : List Row :=
  (rows.map cleanRow).filter
    (fun c => truthy (pyGet c "Product Code") || truthy (pyGet c "Product Series Code"))

/-! ### `group_by_series` -/

/-- The per-item series key of `group_by_series`: the explicit
`Product Series Code` column if truthy, else the `Product Code` prefix before
the first `-` if the code contains a `-`, else before the first `/` if it
contains a `/`, else the whole code. -/
def seriesOf (item : Row) : String :=
  let series := (pyGet item "Product Series Code").getD ""
  if series ≠ "" then series
  else
    let code := (pyGet item "Product Code").getD ""
    if pyContains code '-' then ((pySplitCh '-' code.data).headD []).asString
    else if pyContains code '/' then ((pySplitCh '/' code.data).headD []).asString
    else code

/-- `series_groups[series].append(item)` preceded by
`if series not in series_groups: series_groups[series] = []`. -/
def gAppend : List (String × List Row) → String → Row → List (String × List Row)
  | [], s, item => [(s, [item])]
  | g :: gs, s, item =>
    if g.1 = s then (g.1, g.2 ++ [item]) :: gs
    else g :: gAppend gs s item

/-- One iteration of the `group_by_series` loop. -/
def groupStep (gs : List (String × List Row)) (item : Row) : List (String × List Row) :=
  if seriesOf item = "" then gs else gAppend gs (seriesOf item) item

/-- `group_by_series`: single pass over the items, appending each item with a
non-empty series key to its key's group. -/
def group_by_series (items : List Row) : List (String × List Row) :=
  items.foldl groupStep []

/-! ### Configuration defaults and field normalisation -/

/-- `COST_COLUMN` configuration default (`os.environ.get("COST_COLUMN", "Euros")`). -/
def COST_COLUMN : String := "Euros"

/-- The reserved columns excluded from metafields in `process_series`:
`['Product Name', 'Product Series Code', 'Product Code', COST_COLUMN]`. -/
def RESERVED : List String :=
  ["Product Name", "Product Series Code", "Product Code", COST_COLUMN]

/-- The field normaliser
`field_name.lower().replace(' ', '_').replace('(', '').replace(')', '').replace('-', '_')`. -/
def normalizeKey (name : String) : String :=
  pyReplaceChar (pyRemoveChar (pyRemoveChar (pyReplaceChar (pyLower name) ' ' '_') '(') ')') '-' '_'

/-- The per-column condition of the metafield loop in `process_series`:
`field_value and str(field_value).strip() and field_name not in [...]`. -/
def qualCol (kv : String × String) : Bool :=
  kv.2 ≠ "" && pyStrip kv.2 ≠ "" && !(RESERVED.contains kv.1)

/-- The metafield dict built for one row in `process_series` (both in the
dry-run report and before `set_variant_metafields`): one entry per column
whose value is truthy with non-blank strip and whose name is not reserved,
keyed by `normalizeKey`, valued by the stripped value; Python-dict overwrite
on key collision. -/
def buildMetafields (item : Row) : List (String × String) :=
  item.foldl
    (fun d kv => if qualCol kv then dinsert d (normalizeKey kv.1) (pyStrip kv.2) else d)
    []

/-- The handle derivation of `process_series`:
`f"series-{series.lower().replace('.', '-').replace(' ', '-').replace('/', '-')}"`. -/
def deriveHandle (series : String) : String :=
  "series-" ++ pyReplaceChar (pyReplaceChar (pyReplaceChar (pyLower series) '.' '-') ' ' '-') '/' '-'

/-- The title derivation of `process_series`:
`items[0].get('Product Name', f"Series {series}")` — the default applies only
when the key is absent. -/
def titleOf (series : String) (first : Row) : String :=
  match pyGet first "Product Name" with
  | some v => v
  | none => "Series " ++ series

/-- The cost normalisation of the `process_series` row loop:
`cost = str(cost).replace(',', '').strip()`, `float` with `ValueError`
falling back to `0` (resetting `cost` to `'0'`), and
`price = cost if cost_float > 0 else "0.01"`. Returns
(`cost`, `cost_float`, `price`); the float is kept as a scaled decimal and
`cost_float > 0` is its numerator's sign (see `decVal_pos`). -/
def costAndPrice (raw : String) : String × (Int × Nat) × String :=
  let c0 := pyStrip (pyRemoveChar raw ',')
  let p : String × (Int × Nat) :=
    if c0 = "" then (c0, (0, 0))
    else
      match pyFloat? c0 with
      | some q => (c0, q)
      | none => ("0", (0, 0))
  (p.1, p.2, if 0 < p.2.1 then p.1 else "0.01")

/-! ### The remote catalog model

`process_series` talks to the shop through REST/GraphQL. The remote
catalog is modelled as an explicit state (`RState`): a list of products in
creation order, each holding its variants in creation order, plus a fresh-id
counter standing for the server's id generator. Every remote call is
recorded in a trace (`Effect`), and an `Oracle` decides, per call, whether
the transport raises (`some errorMessage`) or succeeds (`none`) — mirroring
the `try/except` placement of the Python source. -/

/-- A product variant as the REST API returns it: `id`, `sku`, `title`,
`inventory_item_id` (absent ↦ `none`), `price`, and the associated inventory
item's `cost` (kept here since the code addresses it through the variant's
`inventory_item_id`). -/
structure Variant where
  id : Nat
  sku : String
  title : String
  inventory_item_id : Option Nat
  price : String
  invCost : Option String
deriving Repr, DecidableEq

/-- A product with its variants. -/
structure Product where
  id : Nat
  handle : String
  title : String
  variants : List Variant
deriving Repr, DecidableEq

/-- The remote catalog: products in creation order and the server's next
fresh id. -/
structure RState where
  products : List Product
  nextId : Nat
deriving Repr, DecidableEq

/-- One remote call, as recorded in the trace. -/
inductive Effect where
  | getProducts (handle : String)
  | getVariants (productId : Nat)
  | postProduct (title handle : String)
  | deleteVariant (variantId : Nat)
  | putProductOptions (productId : Nat)
  | postVariant (productId : Nat) (sku price : String)
  | putVariantPrice (variantId : Nat) (price : String)
  | putInventoryCost (invItemId : Nat) (cost : String)
  | setMetafields (variantId : Nat) (fields : List (String × String))
deriving Repr, DecidableEq

/-- Failure oracle: `none` means the call succeeds, `some msg` means the
transport raises `RuntimeError(msg)`. -/
abbrev Oracle := Effect → Option String

/-- The all-successful transport. -/
def allOk : Oracle := fun _ => none

/-- Python truthiness of `variant.get('inventory_item_id')` (an integer or
absent): present and non-zero. -/
def invTruthy (o : Option Nat) : Bool :=
  match o with
  | some i => i ≠ 0
  | none => false

/-- Remote semantics of `DELETE variants/{id}.json`: the variant disappears
from the product holding it. -/
def deleteVariantState (st : RState) (vid : Nat) : RState :=
  { st with products := st.products.map fun p =>
      { p with variants := p.variants.filter (fun v => v.id ≠ vid) } }

/-- Remote semantics of `PUT variants/{id}.json` with a price. -/
def setVariantPriceState (st : RState) (vid : Nat) (price : String) : RState :=
  { st with products := st.products.map fun p =>
      { p with variants := p.variants.map fun v =>
          if v.id = vid then { v with price := price } else v } }

/-- Remote semantics of `PUT inventory_items/{id}.json` with a cost. -/
def setInvCostState (st : RState) (inv : Nat) (cost : String) : RState :=
  { st with products := st.products.map fun p =>
      { p with variants := p.variants.map fun v =>
          if v.inventory_item_id = some inv then { v with invCost := some cost } else v } }

/-- `find_product_by_handle`: `GET products.json?handle=…` then
`GET products/{id}/variants.json`; any exception is caught and yields
`None`. -/
def find_product_by_handle (st : RState) (ok : Oracle) (handle : String) :
    Option Product × List Effect :=
  match ok (.getProducts handle) with
  | some _ => (none, [.getProducts handle])
  | none =>
    match st.products.find? (fun p => p.handle = handle) with
    | none => (none, [.getProducts handle])
    | some p =>
      match ok (.getVariants p.id) with
      | some _ => (none, [.getProducts handle, .getVariants p.id])
      | none => (some p, [.getProducts handle, .getVariants p.id])

/-- The deletion condition of `cleanup_existing_product`:
`not variant.get('sku') or variant.get('sku').strip() == '' or
variant.get('title') == 'Default Title'`. -/
def badVariant (v : Variant) : Bool :=
  v.sku = "" || pyStrip v.sku = "" || v.title = "Default Title"

/-- The deletion loop of `cleanup_existing_product`, iterating over the
fetched snapshot while deleting from the live state; a failing `DELETE`
raises out of the surrounding `try`, aborting the rest of the cleanup
(`false` flag). -/
def cleanupLoop (ok : Oracle) : List Variant → RState → Bool × RState × List Effect
  | [], st => (true, st, [])
  | v :: rest, st =>
    if badVariant v then
      match ok (.deleteVariant v.id) with
      | some _ => (false, st, [.deleteVariant v.id])
      | none =>
        let r := cleanupLoop ok rest (deleteVariantState st v.id)
        (r.1, r.2.1, .deleteVariant v.id :: r.2.2)
    else cleanupLoop ok rest st

/-- `cleanup_existing_product`: fetch the variants, delete the default ones,
then reset the product options; every failure is caught at this level (the
options `PUT` mutates only the option schema, which the model does not
track, so it contributes only a trace entry). -/
def cleanup_existing_product (st : RState) (ok : Oracle) (pid : Nat) :
    RState × List Effect :=
  match ok (.getVariants pid) with
  | some _ => (st, [.getVariants pid])
  | none =>
    match st.products.find? (fun p => p.id = pid) with
    | none => (st, [.getVariants pid])
    | some p =>
      match cleanupLoop ok p.variants st with
      | (true, st', tr) => (st', .getVariants pid :: (tr ++ [.putProductOptions pid]))
      | (false, st', tr) => (st', .getVariants pid :: tr)

/-- The post-creation deletion loop of `create_product`: delete fetched
variants whose SKU is falsy or `''`; a failure aborts the loop (caught by
the surrounding `try`). -/
def createProductDeleteLoop (ok : Oracle) : List Variant → RState → RState × List Effect
  | [], st => (st, [])
  | v :: rest, st =>
    if v.sku = "" then
      match ok (.deleteVariant v.id) with
      | some _ => (st, [.deleteVariant v.id])
      | none =>
        let r := createProductDeleteLoop ok rest (deleteVariantState st v.id)
        (r.1, .deleteVariant v.id :: r.2)
    else createProductDeleteLoop ok rest st

/-- `create_product`: `POST products.json` (a failure here propagates out of
`process_series`), which the vendor answers by creating the product together
with an auto-generated default variant (empty SKU, title `Default Title`);
then fetch the variants and delete the SKU-less ones (failures caught). The
returned product snapshot is the `POST` response, default variant included. -/
def create_product (st : RState) (ok : Oracle) (title handle : String) :
    Except String (Product × RState × List Effect) :=
  match ok (.postProduct title handle) with
  | some msg => .error msg
  | none =>
    let defaultVar : Variant :=
      { id := st.nextId + 1, sku := "", title := "Default Title",
        inventory_item_id := some (st.nextId + 2), price := "0.00", invCost := none }
    let p : Product := { id := st.nextId, handle := handle, title := title, variants := [defaultVar] }
    let st₁ : RState := { products := st.products ++ [p], nextId := st.nextId + 3 }
    match ok (.getVariants p.id) with
    | some _ => .ok (p, st₁, [.postProduct title handle, .getVariants p.id])
    | none =>
      let r := createProductDeleteLoop ok p.variants st₁
      .ok (p, r.1, .postProduct title handle :: .getVariants p.id :: r.2)

/-- The price floor applied inside `update_variant` / `create_variant`:
coerce unparsable or non-positive prices to the `"0.01"` minimum. -/
def priceFloor (price : String) : String :=
  match pyFloat? price with
  | some q => if q.1 ≤ 0 then "0.01" else price
  | none => "0.01"

/-- `update_variant`: when a price is given (truthy), apply the floor and
`PUT` it; a transport failure is caught (the function then returns a stub
dict, which the caller ignores). -/
def update_variant (st : RState) (ok : Oracle) (vid : Nat) (price : String) :
    RState × List Effect :=
  if price = "" then (st, [])
  else
    let price' := priceFloor price
    match ok (.putVariantPrice vid price') with
    | some _ => (st, [.putVariantPrice vid price'])
    | none => (setVariantPriceState st vid price', [.putVariantPrice vid price'])

/-- `update_inventory_cost`: return silently when the cost fails to parse or
is non-positive; otherwise `PUT` it, catching any failure. -/
def update_inventory_cost (st : RState) (ok : Oracle) (inv : Nat) (cost : String) :
    RState × List Effect :=
  match pyFloat? cost with
  | none => (st, [])
  | some q =>
    if q.1 ≤ 0 then (st, [])
    else
      match ok (.putInventoryCost inv cost) with
      | some _ => (st, [.putInventoryCost inv cost])
      | none => (setInvCostState st inv cost, [.putInventoryCost inv cost])

/-- Remote semantics of `POST products/{pid}/variants.json`: a fresh variant
whose title mirrors its sole option value (the SKU); `none` when the product
does not exist (the REST 404 raises, which the caller catches). -/
def createVariantState (st : RState) (pid : Nat) (sku price : String) :
    Option Variant × RState :=
  if st.products.any (fun p => p.id = pid) then
    let v : Variant :=
      { id := st.nextId, sku := sku, title := sku,
        inventory_item_id := some (st.nextId + 1), price := price, invCost := none }
    (some v,
      { products := st.products.map (fun p =>
          if p.id = pid then { p with variants := p.variants ++ [v] } else p),
        nextId := st.nextId + 2 })
  else (none, st)

/-- `create_variant`: apply the price floor and `POST`; on a failure whose
message looks like rate limiting — contains `429` or `Exceeded` — retry exactly
once; any remaining failure is caught and yields `{}` (`none`). -/
def create_variant (st : RState) (ok : Oracle) (pid : Nat) (sku price : String) :
    Option Variant × RState × List Effect :=
  let price' := priceFloor price
  let eff := Effect.postVariant pid sku price'
  match ok eff with
  | none =>
    let r := createVariantState st pid sku price'
    (r.1, r.2, [eff])
  | some msg =>
    if containsSub msg.data "429".data || containsSub msg.data "Exceeded".data then
      match ok eff with
      | none =>
        let r := createVariantState st pid sku price'
        (r.1, r.2, [eff, eff])
      | some _ => (none, st, [eff, eff])
    else (none, st, [eff])

/-- The metafield inputs built by `set_variant_metafields`: keep truthy
values with non-blank strip, lowercase the key, strip the value. -/
def metafieldInputs (mfs : List (String × String)) : List (String × String) :=
  mfs.foldl
    (fun acc kv =>
      if kv.2 ≠ "" && pyStrip kv.2 ≠ "" then acc ++ [(pyLower kv.1, pyStrip kv.2)] else acc)
    []

/-- `set_variant_metafields`: a single GraphQL mutation when the input list
is non-empty; failures are caught and the metafield objects themselves are
not tracked in the state (no claim concerns them), only the call is. -/
def set_variant_metafields (st : RState) (_ok : Oracle) (vid : Nat)
    (mfs : List (String × String)) : RState × List Effect :=
  let inputs := metafieldInputs mfs
  if inputs = [] then (st, [])
  else (st, [.setMetafields vid inputs])

/-- The SKU → variant dict `existing_variants` built in `process_series`
from the (re-fetched) product's variants. -/
def buildLookup (variants : List Variant) : List (String × Variant) :=
  variants.foldl (fun d v => if v.sku ≠ "" then dinsert d v.sku v else d) []

/-- The body of the per-item loop of `process_series`: skip SKU-less rows;
normalise the cost; update the existing variant (price, then — with no check
of the price update's outcome — the inventory cost) when the SKU is in the
lookup, else create it (skipping the row when creation fails); finally set
the row's metafields on the chosen variant. -/
def processItem (pid : Nat) (lookup : List (String × Variant)) (ok : Oracle)
    (item : Row) (st : RState) : RState × List Effect :=
  let sku := (pyGet item "Product Code").getD ""
  if sku = "" then (st, [])
  else
    let cp := costAndPrice ((pyGet item COST_COLUMN).getD "0")
    let cost := cp.1
    let costFloat := cp.2.1
    let price := cp.2.2
    let afterVariant : Option Nat × RState × List Effect :=
      match alookup lookup sku with
      | some v =>
        let r₁ := update_variant st ok v.id price
        let r₂ :=
          if 0 < costFloat.1 && invTruthy v.inventory_item_id then
            update_inventory_cost r₁.1 ok (v.inventory_item_id.getD 0) cost
          else (r₁.1, [])
        (some v.id, r₂.1, r₁.2 ++ r₂.2)
      | none =>
        match create_variant st ok pid sku price with
        | (none, st₁, tr₁) => (none, st₁, tr₁)
        | (some v, st₁, tr₁) =>
          let r₂ :=
            if 0 < costFloat.1 && invTruthy v.inventory_item_id then
              update_inventory_cost st₁ ok (v.inventory_item_id.getD 0) cost
            else (st₁, [])
          (some v.id, r₂.1, tr₁ ++ r₂.2)
    match afterVariant with
    | (none, st', tr) => (st', tr)
    | (some vid, st', tr) =>
      let r := set_variant_metafields st' ok vid (buildMetafields item)
      (r.1, tr ++ r.2)

/-- The per-item loop of `process_series`, threading the remote state. -/
def processItems (pid : Nat) (lookup : List (String × Variant)) (ok : Oracle) :
    List Row → RState → RState × List Effect
  | [], st => (st, [])
  | item :: rest, st =>
    let r₁ := processItem pid lookup ok item st
    let r₂ := processItems pid lookup ok rest r₁.1
    (r₂.1, r₁.2 ++ r₂.2)

/-- `process_series(series, items, dry_run)`. An empty series returns
immediately; `items[0]` raises `IndexError` on an empty group (modelled as
`Except.error`); the dry run stops before any remote call; otherwise the
parent product is looked up by handle and either created, or cleaned up and
re-fetched (aborting the series when the re-fetch fails), and every row is
reconciled against the SKU lookup. A failure of the product-creation `POST`
propagates (caught only at the per-series level in `main`). The result is
the final remote state and the trace of all remote calls issued. -/
def process_series (series : String) (items : List Row) (dryRun : Bool)
    (st : RState) (ok : Oracle) : Except String (RState × List Effect) :=
  if series = "" then .ok (st, [])
  else
    match items with
    | [] => .error "IndexError: list index out of range"
    | first :: _ =>
      let handle := deriveHandle series
      let title := titleOf series first
      if dryRun then .ok (st, [])
      else
        match find_product_by_handle st ok handle with
        | (none, tr₀) =>
          match create_product st ok title handle with
          | .error e => .error e
          | .ok (p, st₁, tr₁) =>
            let lookup := buildLookup p.variants
            let r := processItems p.id lookup ok items st₁
            .ok (r.1, tr₀ ++ tr₁ ++ r.2)
        | (some p, tr₀) =>
          let r₁ := cleanup_existing_product st ok p.id
          match find_product_by_handle r₁.1 ok handle with
          | (none, tr₂) => .ok (r₁.1, tr₀ ++ r₁.2 ++ tr₂)
          | (some p', tr₂) =>
            let lookup := buildLookup p'.variants
            let r₂ := processItems p'.id lookup ok items r₁.1
            .ok (r₂.1, tr₀ ++ r₁.2 ++ tr₂ ++ r₂.2)

/-- The trace of a `process_series` result (empty when it raised). -/
def tracedEffects (r : Except String (RState × List Effect)) : List Effect :=
  match r with
  | .ok (_, tr) => tr
  | .error _ => []

/-- The final state of a `process_series` result (`d` when it raised). -/
def finalState (r : Except String (RState × List Effect)) (d : RState) : RState :=
  match r with
  | .ok (st, _) => st
  | .error _ => d

/-! ### Association-list lemmas -/

theorem alookup_nil {α : Type} (k : String) : alookup ([] : List (String × α)) k = none := rfl

theorem alookup_cons {α : Type} (e : String × α) (d : List (String × α)) (k : String) :
    alookup (e :: d) k = if e.1 = k then some e.2 else alookup d k := by
  by_cases h : e.1 = k <;> simp [alookup, List.find?_cons, h]

theorem alookup_dinsert {α : Type} (d : List (String × α)) (k : String) (v : α) (k' : String) :
    alookup (dinsert d k v) k' = if k' = k then some v else alookup d k' := by
  induction d with
  | nil =>
    by_cases h : k' = k
    · simp [dinsert, alookup_cons, h]
    · simp [dinsert, alookup_cons, alookup_nil, h, Ne.symm h]
  | cons e d ih =>
    by_cases he : e.1 = k
    · by_cases h : k' = k
      · subst h
        simp [dinsert, he, alookup_cons]
      · simp [dinsert, he, alookup_cons, h, Ne.symm h]
    · by_cases h : k' = k
      · subst h
        simp [dinsert, he, alookup_cons, ih]
      · have hd : alookup (dinsert d k v) k' = alookup d k' := by rw [ih, if_neg h]
        simp [dinsert, he, alookup_cons, hd, h]

theorem mem_dinsert {α : Type} (d : List (String × α)) (k : String) (v : α)
    (p : String × α) : p ∈ dinsert d k v → p ∈ d ∨ p = (k, v) := by
  induction d with
  | nil =>
    intro hp
    simp [dinsert] at hp
    right
    simp [hp]
  | cons e d ih =>
    intro hp
    by_cases he : e.1 = k
    · simp [dinsert, he, List.mem_cons] at hp
      rcases hp with h | h
      · right; simp [h]
      · left; exact List.mem_cons_of_mem _ h
    · simp only [dinsert, if_neg he, List.mem_cons] at hp
      rcases hp with h | h
      · left; exact h ▸ List.mem_cons_self _ _
      · rcases ih h with h' | h'
        · left; exact List.mem_cons_of_mem _ h'
        · right; exact h'

theorem dinsert_of_not_mem_keys {α : Type} (d : List (String × α)) (k : String) (v : α) :
    ¬ k ∈ d.map (fun kv => kv.1) → dinsert d k v = d ++ [(k, v)] := by
  induction d with
  | nil => intro; rfl
  | cons e d ih =>
    intro hk
    simp only [List.map_cons, List.mem_cons] at hk
    push_neg at hk
    have hek : ¬ e.1 = k := fun h => hk.1 h.symm
    simp only [dinsert, if_neg hek, ih hk.2, List.cons_append]

/-! ### Grouping lemmas -/

theorem alookup_gAppend (gs : List (String × List Row)) (s : String) (item : Row) (k : String) :
    alookup (gAppend gs s item) k =
      if k = s then some ((alookup gs s).getD [] ++ [item]) else alookup gs k := by
  induction gs with
  | nil =>
    by_cases h : k = s
    · subst h
      simp [gAppend, alookup_cons, alookup_nil]
    · simp [gAppend, alookup_cons, alookup_nil, h, Ne.symm h]
  | cons g gs ih =>
    by_cases hg : g.1 = s
    · by_cases h : k = s
      · subst h
        simp [gAppend, hg, alookup_cons]
      · simp [gAppend, hg, alookup_cons, h, Ne.symm h]
    · by_cases h : k = s
      · subst h
        simp [gAppend, hg, alookup_cons, ih]
      · have hd : alookup (gAppend gs s item) k = alookup gs k := by rw [ih, if_neg h]
        simp [gAppend, hg, alookup_cons, hd, h]

/-- Combine an already-accumulated group with the rows a suffix of the input
contributes to it. -/
def combineG : Option (List Row) → List Row → Option (List Row)
  | some l, f => some (l ++ f)
  | none, [] => none
  | none, f => some f

theorem combineG_nil (o : Option (List Row)) : combineG o [] = o := by
  cases o <;> simp [combineG]

theorem combineG_cons (o : Option (List Row)) (r : Row) (f : List Row) :
    combineG o (r :: f) = combineG (some ((o.getD []) ++ [r])) f := by
  cases o <;> simp [combineG]

theorem group_fold_lookup (items : List Row) (gs : List (String × List Row)) (k : String)
    (hk : k ≠ "") :
    alookup (items.foldl groupStep gs) k =
      combineG (alookup gs k) (items.filter (fun r => seriesOf r = k)) := by
  induction items generalizing gs with
  | nil => simp [combineG_nil]
  | cons item rest ih =>
    rw [List.foldl_cons, ih]
    by_cases hs : seriesOf item = ""
    · have hne : ¬ (seriesOf item = k) := fun h => hk (h ▸ hs)
      simp [groupStep, hs, List.filter_cons, hne, Ne.symm hk]
    · by_cases hik : seriesOf item = k
      · rw [groupStep, if_neg hs, alookup_gAppend, if_pos hik.symm, List.filter_cons,
          if_pos (by simp [hik]), combineG_cons, hik]
      · rw [groupStep, if_neg hs, alookup_gAppend, if_neg (fun h => hik h.symm),
          List.filter_cons, if_neg (by simp [hik])]

theorem group_fold_lookup_empty (items : List Row) (gs : List (String × List Row)) :
    alookup (items.foldl groupStep gs) "" = alookup gs "" := by
  induction items generalizing gs with
  | nil => rfl
  | cons item rest ih =>
    rw [List.foldl_cons, ih]
    by_cases hs : seriesOf item = ""
    · simp [groupStep, hs]
    · rw [groupStep, if_neg hs, alookup_gAppend, if_neg (fun h => hs h.symm)]

theorem keys_gAppend (gs : List (String × List Row)) (s : String) (item : Row) :
    (gAppend gs s item).map (fun g => g.1) =
      if gs.any (fun g => g.1 = s) then gs.map (fun g => g.1)
      else gs.map (fun g => g.1) ++ [s] := by
  induction gs with
  | nil => simp [gAppend]
  | cons g gs ih =>
    by_cases hg : g.1 = s
    · simp [gAppend, hg]
    · simp only [gAppend, if_neg hg, List.map_cons, List.any_cons, ih]
      by_cases ha : gs.any (fun g => g.1 = s)
      · simp [hg, ha]
      · simp [hg, ha]

theorem nodup_keys_group_fold (items : List Row) (gs : List (String × List Row))
    (h : (gs.map (fun g => g.1)).Nodup) :
    ((items.foldl groupStep gs).map (fun g => g.1)).Nodup := by
  induction items generalizing gs with
  | nil => exact h
  | cons item rest ih =>
    rw [List.foldl_cons]
    apply ih
    by_cases hs : seriesOf item = ""
    · simpa [groupStep, hs]
    · rw [groupStep, if_neg hs, keys_gAppend]
      by_cases ha : gs.any (fun g => g.1 = seriesOf item)
      · simpa [ha]
      · rw [if_neg (by simpa using ha), List.nodup_append]
        refine ⟨h, List.nodup_singleton _, ?_⟩
        intro a haa hb
        simp only [List.mem_singleton] at hb
        subst hb
        rcases List.mem_map.mp haa with ⟨g, hg, hga⟩
        simp only [List.any_eq_true, decide_eq_true_eq, not_exists, not_and] at ha
        exact ha g hg hga

/-! ### `pySplitCh` characterisation -/

theorem pySplitCh_ne_nil (sep : Char) (cs : List Char) : pySplitCh sep cs ≠ [] := by
  cases cs with
  | nil => simp [pySplitCh]
  | cons c rest =>
    simp only [pySplitCh]
    split
    · simp
    · split <;> simp

/-! ### Remote-model lemmas -/

/-- Drop the variants with the given ids from one product. -/
def gRemove (ids : List Nat) (q : Product) : Product :=
  { q with variants := q.variants.filter (fun v => ¬ v.id ∈ ids) }

/-- Batch form of a sequence of variant deletions. -/
def removeIds (ids : List Nat) (st : RState) : RState :=
  { st with products := st.products.map (gRemove ids) }

theorem removeIds_nil (st : RState) : removeIds [] st = st := by
  unfold removeIds
  have h : st.products.map (gRemove []) = st.products := by
    have hfix : ∀ p : Product, p ∈ st.products → gRemove [] p = p := by
      intro p _
      unfold gRemove
      have hfil : p.variants.filter (fun v => ¬ v.id ∈ ([] : List Nat)) = p.variants :=
        List.filter_eq_self.mpr (fun v _ => by simp)
      rw [hfil]
    rw [List.map_congr_left hfix]
    exact List.map_id st.products
  rw [h]

theorem removeIds_deleteVariantState (st : RState) (i : Nat) (ids : List Nat) :
    removeIds ids (deleteVariantState st i) = removeIds (i :: ids) st := by
  unfold removeIds gRemove deleteVariantState
  simp only [List.map_map]
  congr 1
  apply List.map_congr_left
  intro p _
  simp only [Function.comp]
  congr 1
  rw [List.filter_filter]
  apply List.filter_congr
  intro v _
  by_cases h1 : v.id ∈ ids <;> by_cases h2 : v.id = i <;> simp [h1, h2]

theorem cleanupLoop_allOk (vs : List Variant) (st : RState) :
    cleanupLoop allOk vs st =
      (true, removeIds ((vs.filter badVariant).map (fun v => v.id)) st,
       (vs.filter badVariant).map (fun v => Effect.deleteVariant v.id)) := by
  induction vs generalizing st with
  | nil =>
    simp only [cleanupLoop, List.filter_nil, List.map_nil, removeIds_nil]
  | cons v rest ih =>
    by_cases hb : badVariant v
    · simp only [cleanupLoop, allOk, List.filter_cons, ih, removeIds_deleteVariantState,
        List.map_cons, hb]
      simp
    · simp only [cleanupLoop, List.filter_cons, hb, ih]
      simp [hb]

/-- `find?` over a structure-preserving map. -/
theorem find?_handle_map (l : List Product) (g : Product → Product) (h : String)
    (hg : ∀ p, (g p).handle = p.handle) :
    (l.map g).find? (fun p => p.handle = h) =
      ((l.find? (fun p => p.handle = h)).map g) := by
  induction l with
  | nil => rfl
  | cons p l ih =>
    by_cases hp : p.handle = h
    · rw [List.map_cons, List.find?_cons_of_pos _ (by simp [hg, hp]),
        List.find?_cons_of_pos _ (by simp [hp])]
      rfl
    · rw [List.map_cons, List.find?_cons_of_neg _ (by simp [hg, hp]),
        List.find?_cons_of_neg _ (by simp [hp])]
      exact ih

/-- With distinct keys, `find?` by an element's key returns that element. -/
theorem find?_key_of_nodup {α β : Type} [DecidableEq β] (l : List α) (f : α → β) (a : α)
    (hmem : a ∈ l) (hnodup : (l.map f).Nodup) :
    l.find? (fun x => f x = f a) = some a := by
  induction l with
  | nil => cases hmem
  | cons b l ih =>
    simp only [List.map_cons, List.nodup_cons] at hnodup
    by_cases hb : f b = f a
    · rw [List.find?_cons_of_pos _ (by simp [hb])]
      rcases List.mem_cons.mp hmem with h | h
      · rw [h]
      · exact absurd (hb ▸ List.mem_map_of_mem f h) hnodup.1
    · rw [List.find?_cons_of_neg _ (by simp [hb])]
      rcases List.mem_cons.mp hmem with h | h
      · exact absurd (congrArg f h.symm) hb
      · exact ih h hnodup.2

/-- Distinct images make a map injective on members. -/
theorem nodup_map_inj {α β : Type} (l : List α) (f : α → β)
    (hnodup : (l.map f).Nodup) (a b : α) (ha : a ∈ l) (hb : b ∈ l) (hf : f a = f b) :
    a = b :=
  List.inj_on_of_nodup_map hnodup ha hb hf

/-- Is an effect a child-creation (`POST …/variants.json`) call? -/
def isPostVariant : Effect → Bool
  | .postVariant _ _ _ => true
  | _ => false

theorem update_variant_no_post (st : RState) (ok : Oracle) (vid : Nat) (price : String) :
    ∀ e ∈ (update_variant st ok vid price).2, isPostVariant e = false := by
  unfold update_variant
  split
  · simp
  · rcases hok : ok (.putVariantPrice vid (priceFloor price)) with _ | m <;>
      simp [hok, isPostVariant]

theorem update_inventory_cost_no_post (st : RState) (ok : Oracle) (inv : Nat) (cost : String) :
    ∀ e ∈ (update_inventory_cost st ok inv cost).2, isPostVariant e = false := by
  unfold update_inventory_cost
  rcases pyFloat? cost with _ | q
  · simp
  · simp only
    split
    · simp
    · rcases hok : ok (.putInventoryCost inv cost) with _ | m <;> simp [hok, isPostVariant]

theorem set_variant_metafields_no_post (st : RState) (ok : Oracle) (vid : Nat)
    (mfs : List (String × String)) :
    ∀ e ∈ (set_variant_metafields st ok vid mfs).2, isPostVariant e = false := by
  unfold set_variant_metafields
  by_cases h : metafieldInputs mfs = [] <;> simp [h, isPostVariant]

theorem processItem_no_post (pid : Nat) (lookup : List (String × Variant)) (ok : Oracle)
    (item : Row) (st : RState)
    (hlk : (pyGet item "Product Code").getD "" ≠ "" →
      (alookup lookup ((pyGet item "Product Code").getD "")).isSome) :
    ∀ e ∈ (processItem pid lookup ok item st).2, isPostVariant e = false := by
  unfold processItem
  by_cases hsku : (pyGet item "Product Code").getD "" = ""
  · simp [hsku]
  · rcases halk : alookup lookup ((pyGet item "Product Code").getD "") with _ | v
    · rw [halk] at hlk
      simp at hlk
      exact absurd hlk hsku
    · simp only [if_neg hsku, halk]
      intro e he
      simp only [List.mem_append] at he
      rcases he with (he | he) | he
      · exact update_variant_no_post _ _ _ _ e he
      · split at he
        · exact update_inventory_cost_no_post _ _ _ _ e he
        · cases he
      · exact set_variant_metafields_no_post _ _ _ _ e he

theorem processItems_no_post (pid : Nat) (lookup : List (String × Variant)) (ok : Oracle)
    (items : List Row)
    (hlk : ∀ item ∈ items, (pyGet item "Product Code").getD "" ≠ "" →
      (alookup lookup ((pyGet item "Product Code").getD "")).isSome) :
    ∀ st, ∀ e ∈ (processItems pid lookup ok items st).2, isPostVariant e = false := by
  induction items with
  | nil => intro st e he; cases he
  | cons item rest ih =>
    intro st e he
    simp only [processItems, List.mem_append] at he
    rcases he with he | he
    · exact processItem_no_post pid lookup ok item st
        (hlk item (List.mem_cons_self _ _)) e he
    · exact ih (fun it hit => hlk it (List.mem_cons_of_mem _ hit)) _ e he

theorem buildLookup_isSome (vs : List Variant) (d : List (String × Variant)) (s : String)
    (h : (alookup d s).isSome ∨ (s ≠ "" ∧ ∃ v ∈ vs, v.sku = s)) :
    (alookup (vs.foldl (fun d v => if v.sku ≠ "" then dinsert d v.sku v else d) d) s).isSome := by
  induction vs generalizing d with
  | nil =>
    rcases h with h | ⟨_, v, hv, _⟩
    · exact h
    · cases hv
  | cons v vs ih =>
    rw [List.foldl_cons]
    apply ih
    rcases h with h | ⟨hs, w, hw, hws⟩
    · left
      by_cases hv : v.sku ≠ ""
      · rw [if_pos hv, alookup_dinsert]
        split
        · simp
        · exact h
      · rw [if_neg hv]
        exact h
    · rcases List.mem_cons.mp hw with hwv | hwv
      · left
        subst hwv
        rw [if_pos (hws ▸ hs), alookup_dinsert, if_pos hws.symm]
        simp
      · right
        exact ⟨hs, w, hwv, hws⟩

theorem find_product_allOk_some (st : RState) (h : String) (p : Product)
    (hf : st.products.find? (fun q => q.handle = h) = some p) :
    find_product_by_handle st allOk h = (some p, [.getProducts h, .getVariants p.id]) := by
  unfold find_product_by_handle allOk
  rw [hf]

theorem cleanup_allOk (st : RState) (p : Product)
    (hmem : p ∈ st.products) (hnodup : (st.products.map (fun q => q.id)).Nodup) :
    cleanup_existing_product st allOk p.id =
      (removeIds ((p.variants.filter badVariant).map (fun v => v.id)) st,
       .getVariants p.id ::
         ((p.variants.filter badVariant).map (fun v => Effect.deleteVariant v.id)
           ++ [.putProductOptions p.id])) := by
  unfold cleanup_existing_product
  simp only [allOk, find?_key_of_nodup st.products (fun q => q.id) p hmem hnodup,
    cleanupLoop_allOk]

theorem pySplitCh_headD (sep : Char) (cs : List Char) :
    (pySplitCh sep cs).headD [] = cs.takeWhile (fun c => c ≠ sep) := by
  induction cs with
  | nil => simp [pySplitCh]
  | cons c rest ih =>
    simp only [pySplitCh]
    by_cases hc : c = sep
    · simp [hc, List.takeWhile_cons]
    · simp only [if_neg hc]
      rcases hr : pySplitCh sep rest with _ | ⟨h, t⟩
      · exact absurd hr (pySplitCh_ne_nil sep rest)
      · have := ih
        rw [hr] at this
        simp at this
        simp [List.takeWhile_cons, hc, this]

/-- No element of `update_variant`'s trace is an inventory-cost call. -/
theorem update_variant_no_invcost (st : RState) (ok : Oracle) (vid : Nat) (price : String) :
    ∀ e ∈ (update_variant st ok vid price).2, ∀ i c, e ≠ Effect.putInventoryCost i c := by
  unfold update_variant
  split
  · simp
  · rcases hok : ok (.putVariantPrice vid (priceFloor price)) with _ | m <;> simp [hok]

/-- No element of `set_variant_metafields`'s trace is an inventory-cost call. -/
theorem set_variant_metafields_no_invcost (st : RState) (ok : Oracle) (vid : Nat)
    (mfs : List (String × String)) :
    ∀ e ∈ (set_variant_metafields st ok vid mfs).2, ∀ i c, e ≠ Effect.putInventoryCost i c := by
  unfold set_variant_metafields
  by_cases h : metafieldInputs mfs = [] <;> simp [h]

/-- `update_inventory_cost` always attempts the `PUT` when the cost parses
positive, whatever the oracle answers. -/
theorem update_inventory_cost_trace_of_pos (st : RState) (ok : Oracle) (inv : Nat) (cost : String)
    (q : Int × Nat) (hq : pyFloat? cost = some q) (hpos : 0 < q.1) :
    (update_inventory_cost st ok inv cost).2 = [Effect.putInventoryCost inv cost] := by
  unfold update_inventory_cost
  rw [hq]
  simp only [if_neg (not_le.mpr hpos)]
  rcases hok : ok (.putInventoryCost inv cost) with _ | m <;> simp [hok]

/-- A positive normalised cost is exactly the parse of the normalised cost
string. -/
theorem costAndPrice_parse_of_pos (raw : String)
    (h : 0 < (costAndPrice raw).2.1.1) :
    pyFloat? (costAndPrice raw).1 = some (costAndPrice raw).2.1 := by
  unfold costAndPrice at h ⊢
  by_cases h0 : pyStrip (pyRemoveChar raw ',') = ""
  · simp [h0] at h
  · rcases hp : pyFloat? (pyStrip (pyRemoveChar raw ',')) with _ | q
    · simp [h0, hp] at h
    · simp [h0, hp]

/-- The generalised fold of `buildMetafields`: with no key collisions, each
qualifying column appends exactly one entry. -/
theorem buildMetafields_fold (item : Row) (acc : List (String × String))
    (h : (acc.map (fun kv => kv.1)
          ++ (item.filter qualCol).map (fun kv => normalizeKey kv.1)).Nodup) :
    item.foldl (fun d kv => if qualCol kv then dinsert d (normalizeKey kv.1) (pyStrip kv.2) else d)
        acc =
      acc ++ (item.filter qualCol).map (fun kv => (normalizeKey kv.1, pyStrip kv.2)) := by
  induction item generalizing acc with
  | nil => simp
  | cons kv rest ih =>
    rw [List.foldl_cons]
    by_cases hq : qualCol kv
    · rw [List.filter_cons_of_pos hq, List.map_cons] at h
      have hkey : ¬ normalizeKey kv.1 ∈ acc.map (fun kv => kv.1) := by
        intro hin
        have hdisj := List.disjoint_of_nodup_append h
        exact hdisj hin (List.mem_cons_self _ _)
      have hacc : ((acc ++ [(normalizeKey kv.1, pyStrip kv.2)]).map (fun kv => kv.1)
          ++ (rest.filter qualCol).map (fun kv => normalizeKey kv.1)).Nodup := by
        rw [List.map_append, List.append_assoc]
        simpa using h
      rw [if_pos hq, dinsert_of_not_mem_keys _ _ _ hkey, ih _ hacc,
        List.filter_cons_of_pos hq, List.map_cons, List.append_assoc]
      rfl
    · rw [List.filter_cons_of_neg (by simpa using hq)] at h
      rw [if_neg hq, ih _ h, List.filter_cons_of_neg (by simpa using hq)]

/-! ### Concrete fixtures used by counterexamples and witnesses -/

/-- A one-row series group: SKU `A1`, cost `7`. -/
def exItems : List Row := [[("Product Code", "A1"), ("Euros", "7")]]

/-- A well-formed existing child record for SKU `A1`. -/
def exGoodVariant : Variant :=
  { id := 10, sku := "A1", title := "A1", inventory_item_id := some 100,
    price := "5", invCost := none }

/-- An existing child record for SKU `A1` carrying the sentinel title the
cleanup pass deletes. -/
def exSentinelVariant : Variant :=
  { id := 10, sku := "A1", title := "Default Title", inventory_item_id := some 100,
    price := "5", invCost := none }

/-- The parent product for handle `series-s` holding one given child. -/
def exProduct (v : Variant) : Product :=
  { id := 1, handle := "series-s", title := "T", variants := [v] }

/-- A remote state holding exactly the parent for `series-s` with one child. -/
def exState (v : Variant) : RState :=
  { products := [exProduct v], nextId := 50 }

/-- A transport that fails exactly the variant-price `PUT` calls. -/
def failPriceOracle : Oracle := fun e =>
  match e with
  | .putVariantPrice _ _ => some "REST API Error: 500 - boom"
  | _ => none

/-! ### Claims -/

/-- **C1, counterexample.** The remote parent for the derived handle
`series-s` already holds a child record for the single row's SKU `A1`, yet
reconciling (`process_series` with `dry_run = False`, all calls succeeding)
issues a child-creation call for that SKU: the child carries the sentinel
title `Default Title`, so the cleanup pass deletes it before the SKU lookup
is built, and the row takes the create path — contradicting the claim that
no child-creation call is issued whenever a child per row-SKU exists. -/
theorem c1_counterexample :
    ((exState exSentinelVariant).products.map
        (fun q => (q.handle, q.variants.map (fun v => v.sku))) =
      [(deriveHandle "S", ["A1"])]) ∧
    (exItems.map (fun r => (pyGet r "Product Code").getD "") = ["A1"]) ∧
    Effect.postVariant 1 "A1" "7" ∈
      tracedEffects (process_series "S" exItems false (exState exSentinelVariant) allOk) := by
  refine ⟨by decide, by decide, by decide⟩

/-- **C1 (amended).** Reconciliation is idempotent for unchanged input: for
every series group and every well-formed remote state (distinct product and
variant ids) in which the parent record with the derived handle holds, for
each row's non-empty SKU, a child record that the cleanup pass will not
delete (non-blank SKU after trimming and title other than the sentinel
`Default Title`), a second `process_series` run with `dry_run = False` and a
successful transport issues no child-creation call: every such row takes the
update path. -/
theorem c1_amended_second_run_updates
    (series : String) (items : List Row) (st : RState) (p : Product)
    (hseries : series ≠ "") (hitems : items ≠ [])
    (hFind : st.products.find? (fun q => q.handle = deriveHandle series) = some p)
    (hPid : (st.products.map (fun q => q.id)).Nodup)
    (hVid : (p.variants.map (fun v => v.id)).Nodup)
    (hMatch : ∀ item ∈ items, (pyGet item "Product Code").getD "" ≠ "" →
      ∃ v ∈ p.variants, v.sku = (pyGet item "Product Code").getD "" ∧
        pyStrip v.sku ≠ "" ∧ v.title ≠ "Default Title") :
    ∃ st' tr, process_series series items false st allOk = .ok (st', tr) ∧
      ∀ e ∈ tr, isPostVariant e = false := by
  rcases List.exists_cons_of_ne_nil hitems with ⟨first, rest, hcons⟩
  subst hcons
  have hmem : p ∈ st.products := List.mem_of_find?_eq_some hFind
  have hfind₁ :
      (removeIds ((p.variants.filter badVariant).map (fun v => v.id)) st).products.find?
        (fun q => q.handle = deriveHandle series) =
      some (gRemove ((p.variants.filter badVariant).map (fun v => v.id)) p) := by
    show (st.products.map _).find? _ = _
    rw [find?_handle_map st.products
      (gRemove ((p.variants.filter badVariant).map (fun v => v.id)))
      (deriveHandle series) (fun _ => rfl), hFind]
    rfl
  simp only [process_series, if_neg hseries,
    find_product_allOk_some st (deriveHandle series) p hFind,
    cleanup_allOk st p hmem hPid,
    find_product_allOk_some _ (deriveHandle series) _ hfind₁]
  refine ⟨_, _, rfl, ?_⟩
  have hlk : ∀ item ∈ first :: rest, (pyGet item "Product Code").getD "" ≠ "" →
      (alookup
        (buildLookup ((gRemove ((p.variants.filter badVariant).map (fun v => v.id)) p).variants))
        ((pyGet item "Product Code").getD "")).isSome := by
    intro item hitem hsku
    rcases hMatch item hitem hsku with ⟨v, hv, hvs, hstrip, htitle⟩
    apply buildLookup_isSome _ [] _
    right
    refine ⟨hsku, v, ?_, hvs⟩
    show v ∈ p.variants.filter _
    rw [List.mem_filter]
    refine ⟨hv, ?_⟩
    have hbadv : badVariant v = false := by
      unfold badVariant
      have hsku' : ¬ v.sku = "" := fun h => hstrip (by rw [h]; rfl)
      simp [hsku', hstrip, htitle]
    simp only [decide_eq_true_eq]
    intro hvin
    rcases List.mem_map.mp hvin with ⟨w, hw, hwid⟩
    have hwmem : w ∈ p.variants := (List.mem_filter.mp hw).1
    have hwbad : badVariant w = true := (List.mem_filter.mp hw).2
    have hwv : w = v := nodup_map_inj p.variants (fun v => v.id) hVid w v hwmem hv hwid
    rw [hwv, hbadv] at hwbad
    cases hwbad
  intro e he
  rw [List.mem_append, List.mem_append, List.mem_append] at he
  rcases he with ((hA | hB) | hC) | hD
  · simp only [List.mem_cons, List.not_mem_nil, or_false] at hA
    rcases hA with rfl | rfl <;> rfl
  · simp only [List.mem_cons, List.mem_append, List.mem_singleton, List.mem_map,
      List.not_mem_nil, or_false] at hB
    rcases hB with rfl | (⟨v, _, rfl⟩ | rfl) <;> rfl
  · simp only [List.mem_cons, List.not_mem_nil, or_false] at hC
    rcases hC with rfl | rfl <;> rfl
  · exact processItems_no_post _ _ _ _ hlk _ e hD

/-- **C1, witness.** The amended theorem applied to a concrete one-row group
against a state whose parent already holds a well-formed child for the row's
SKU. -/
theorem c1_amended_second_run_updates_witness :
    ∃ st' tr, process_series "S" exItems false (exState exGoodVariant) allOk = .ok (st', tr) ∧
      ∀ e ∈ tr, isPostVariant e = false :=
  c1_amended_second_run_updates "S" exItems (exState exGoodVariant) (exProduct exGoodVariant)
    (by decide) (by decide) (by decide) (by decide) (by decide) (by decide)

/-- **C2.** Dry run performs zero remote mutations: on any non-empty series
group, `process_series` with `dry_run = True` issues no remote call at all
(empty trace, REST or GraphQL alike), leaves the remote state untouched, and
terminates there — whatever the transport oracle would have answered. -/
theorem c2_dry_run_no_mutations (series : String) (items : List Row) (st : RState) (ok : Oracle)
    (h : items ≠ []) :
    process_series series items true st ok = .ok (st, []) := by
  unfold process_series
  rcases items with _ | ⟨first, rest⟩
  · exact absurd rfl h
  · by_cases hs : series = "" <;> simp [hs]

/-- **C2, witness.** The dry-run theorem applied to a concrete non-empty
group. -/
theorem c2_dry_run_no_mutations_witness :
    process_series "S" exItems true (exState exGoodVariant) allOk =
      .ok (exState exGoodVariant, []) :=
  c2_dry_run_no_mutations "S" exItems (exState exGoodVariant) allOk (by decide)

/-- **C3, counterexample.** Against a state whose parent holds a well-formed
child for SKU `A1` (inventory item `100`) and a transport failing exactly the
variant-price `PUT`, reconciling the one-row group still issues the
inventory-cost `PUT` and changes the child's inventory cost to `7` — the
price update failed, yet the inventory cost field does not stay unchanged,
because the code never inspects `update_variant`'s result. -/
theorem c3_counterexample :
    (failPriceOracle (Effect.putVariantPrice 10 "7")).isSome ∧
    Effect.putVariantPrice 10 "7" ∈
      tracedEffects (process_series "S" exItems false (exState exGoodVariant) failPriceOracle) ∧
    Effect.putInventoryCost 100 "7" ∈
      tracedEffects (process_series "S" exItems false (exState exGoodVariant) failPriceOracle) ∧
    ((finalState (process_series "S" exItems false (exState exGoodVariant) failPriceOracle)
        (exState exGoodVariant)).products.map
          (fun q => q.variants.map (fun v => (v.price, v.invCost))) =
      [[("5", some "7")]]) := by
  refine ⟨by decide, by decide, by decide, by decide⟩

/-- **C3 (amended).** For a row whose SKU is found in the SKU lookup, the
separate inventory-cost call is attempted exactly when the row's normalised
cost is positive and the child record carries a (non-zero) inventory-item
id — independently of whether the price update succeeded, for every
transport oracle. -/
theorem c3_amended_inventory_cost_guard
    (st : RState) (ok : Oracle) (pid : Nat) (lookup : List (String × Variant))
    (item : Row) (v : Variant) (i : Nat)
    (hsku : (pyGet item "Product Code").getD "" ≠ "")
    (hlook : alookup lookup ((pyGet item "Product Code").getD "") = some v)
    (hinv : v.inventory_item_id = some i) (hi : i ≠ 0) :
    (Effect.putInventoryCost i (costAndPrice ((pyGet item COST_COLUMN).getD "0")).1 ∈
        (processItem pid lookup ok item st).2) ↔
      0 < (costAndPrice ((pyGet item COST_COLUMN).getD "0")).2.1.1 := by
  simp only [processItem, if_neg hsku, hlook]
  constructor
  · intro hmemb
    by_cases hcf : 0 < (costAndPrice ((pyGet item COST_COLUMN).getD "0")).2.1.1
    · exact hcf
    · exfalso
      rw [if_neg (by simp [hcf])] at hmemb
      simp only [List.append_nil, List.mem_append] at hmemb
      rcases hmemb with hm | hm
      · exact update_variant_no_invcost _ _ _ _ _ hm _ _ rfl
      · exact set_variant_metafields_no_invcost _ _ _ _ _ hm _ _ rfl
  · intro hcf
    rw [if_pos (by simp [hcf, hinv, invTruthy, hi])]
    rw [hinv]
    simp only [Option.getD_some]
    rw [update_inventory_cost_trace_of_pos _ ok i _ _
      (costAndPrice_parse_of_pos _ hcf) hcf]
    simp

/-- **C3, witness.** The amended guard theorem applied to a concrete row and
lookup: cost `7` is positive, so the inventory-cost call is in the trace. -/
theorem c3_amended_inventory_cost_guard_witness :
    (Effect.putInventoryCost 100
        (costAndPrice ((pyGet [("Product Code", "A1"), ("Euros", "7")] COST_COLUMN).getD "0")).1 ∈
      (processItem 1 [("A1", exGoodVariant)] failPriceOracle
        [("Product Code", "A1"), ("Euros", "7")] (exState exGoodVariant)).2) ↔
      0 < (costAndPrice ((pyGet [("Product Code", "A1"), ("Euros", "7")] COST_COLUMN).getD "0")).2.1.1 :=
  c3_amended_inventory_cost_guard (exState exGoodVariant) failPriceOracle 1
    [("A1", exGoodVariant)] [("Product Code", "A1"), ("Euros", "7")] exGoodVariant 100
    (by decide) (by decide) (by decide) (by decide)

/-- **C4.** Cost normalisation and price floor: for every cost string, the
price computed by the row loop equals the comma-stripped, whitespace-trimmed
cost string when that string parses to a positive number, and the configured
minimum `"0.01"` otherwise (parse failure, empty, zero or negative); in
particular the five cost inputs named by the claim produce the prices it
names. -/
theorem c4_cost_normalization_price_floor :
    (∀ raw : String,
      (costAndPrice raw).2.2 =
        if 0 < ((pyFloat? (pyStrip (pyRemoveChar raw ','))).getD (0, 0)).1
        then pyStrip (pyRemoveChar raw ',') else "0.01") ∧
    (costAndPrice "").2.2 = "0.01" ∧ (costAndPrice "0").2.2 = "0.01" ∧
    (costAndPrice "-5").2.2 = "0.01" ∧ (costAndPrice "abc").2.2 = "0.01" ∧
    (costAndPrice "12.50").2.2 = "12.50" := by
  refine ⟨?_, by decide, by decide, by decide, by decide, by decide⟩
  intro raw
  unfold costAndPrice
  by_cases h0 : pyStrip (pyRemoveChar raw ',') = ""
  · have hnone : pyFloat? "" = none := rfl
    simp [h0, hnone]
  · rcases hp : pyFloat? (pyStrip (pyRemoveChar raw ',')) with _ | q <;> simp [h0, hp]

/-- **C5, counterexample.** A row whose item-code column is absent but whose
series-code column is non-empty is kept by `parse_csv` — contradicting the
claim that every parsed row has a non-empty item-code field. -/
theorem c5_counterexample :
    parse_csv [[("Product Series Code", "X")]] = [[("Product Series Code", "X")]] ∧
    pyGet [("Product Series Code", "X")] "Product Code" = none := by
  refine ⟨by decide, by decide⟩

/-- **C5 (amended).** Every row produced by `parse_csv` has a non-empty
item-code field or a non-empty series-code field; rows with neither are not
included, regardless of their other fields. -/
theorem c5_amended_parse_rows_have_code_or_series (rows : List Row) (r : Row)
    (hr : r ∈ parse_csv rows) :
    (truthy (pyGet r "Product Code") || truthy (pyGet r "Product Series Code")) = true := by
  unfold parse_csv at hr
  exact (List.mem_filter.mp hr).2

/-- **C5, witness.** The amended theorem applied to a concrete parse run. -/
theorem c5_amended_parse_rows_have_code_or_series_witness :
    (truthy (pyGet [("Product Code", "A1")] "Product Code") ||
      truthy (pyGet [("Product Code", "A1")] "Product Series Code")) = true :=
  c5_amended_parse_rows_have_code_or_series [[("Product Code", "A1")]]
    [("Product Code", "A1")] (by decide)

/-- Modelled from the spec's words for claim C6 only (refinement target, not
code): the prefix of the item code before the first occurrence of `-` or
`/`, whichever delimiter occurs first in the string. -/
def specFirstDelimKey (code : String) : String :=
  (code.data.takeWhile (fun c => c ≠ '-' && c ≠ '/')).asString

/-- **C6, counterexample.** For item code `A/B-C` (no explicit series
column), the `/` occurs first, so the claim's rule yields `A`; the code
checks `-` before `/` and yields `A/B`. -/
theorem c6_counterexample :
    seriesOf [("Product Code", "A/B-C")] = "A/B" ∧
    specFirstDelimKey "A/B-C" = "A" ∧
    seriesOf [("Product Code", "A/B-C")] ≠ specFirstDelimKey "A/B-C" := by
  refine ⟨by decide, by decide, by decide⟩

/-- **C6 (amended).** For every row whose explicit series column is empty,
the derived series key is the prefix of the item code before the first `-`
when the code contains a `-` anywhere (even if a `/` occurs earlier), else
the prefix before the first `/` when it contains a `/`, else the whole code;
in particular `8L.1001-300X3.2Z72` derives `8L.1001`. -/
theorem c6_amended_series_key_derivation (item : Row)
    (hexp : (pyGet item "Product Series Code").getD "" = "") :
    (seriesOf item =
      (if pyContains ((pyGet item "Product Code").getD "") '-' then
        ((((pyGet item "Product Code").getD "").data.takeWhile (fun c => c ≠ '-')).asString)
       else if pyContains ((pyGet item "Product Code").getD "") '/' then
        ((((pyGet item "Product Code").getD "").data.takeWhile (fun c => c ≠ '/')).asString)
       else (pyGet item "Product Code").getD "")) ∧
    seriesOf [("Product Code", "8L.1001-300X3.2Z72")] = "8L.1001" := by
  constructor
  · unfold seriesOf
    rw [hexp]
    simp [← List.headD_eq_head?_getD, pySplitCh_headD]
  · decide

/-- **C6, witness.** The amended derivation applied to the claim's concrete
item code. -/
theorem c6_amended_series_key_derivation_witness :
    (seriesOf [("Product Code", "8L.1001-300X3.2Z72")] =
      (if pyContains ((pyGet [("Product Code", "8L.1001-300X3.2Z72")] "Product Code").getD "") '-' then
        ((((pyGet [("Product Code", "8L.1001-300X3.2Z72")] "Product Code").getD "").data.takeWhile
          (fun c => c ≠ '-')).asString)
       else if pyContains ((pyGet [("Product Code", "8L.1001-300X3.2Z72")] "Product Code").getD "") '/' then
        ((((pyGet [("Product Code", "8L.1001-300X3.2Z72")] "Product Code").getD "").data.takeWhile
          (fun c => c ≠ '/')).asString)
       else (pyGet [("Product Code", "8L.1001-300X3.2Z72")] "Product Code").getD "")) ∧
    seriesOf [("Product Code", "8L.1001-300X3.2Z72")] = "8L.1001" :=
  c6_amended_series_key_derivation [("Product Code", "8L.1001-300X3.2Z72")] (by decide)

/-- **C7.** Grouping is a partition preserving order: for every item list,
the group stored under any non-empty key `k` is exactly the subsequence of
items whose series key is `k` (so every such item occurs in exactly that one
group, in input order, and the group exists only when non-empty); no group
is keyed by the empty string (rows with an empty series key are dropped);
and the group keys are pairwise distinct. -/
theorem c7_grouping_partition (items : List Row) (k : String) (hk : k ≠ "") :
    (alookup (group_by_series items) k =
      (if items.filter (fun r => seriesOf r = k) = [] then none
       else some (items.filter (fun r => seriesOf r = k)))) ∧
    alookup (group_by_series items) "" = none ∧
    ((group_by_series items).map (fun g => g.1)).Nodup := by
  refine ⟨?_, ?_, ?_⟩
  · rw [group_by_series, group_fold_lookup items [] k hk, alookup_nil]
    rcases hf : items.filter (fun r => seriesOf r = k) with _ | ⟨r, f⟩
    · simp [combineG]
    · simp [combineG]
  · rw [group_by_series, group_fold_lookup_empty]
    rfl
  · exact nodup_keys_group_fold items [] (by simp)

/-- **C7, witness.** The partition theorem applied to a concrete two-row,
one-dropped-row input. -/
theorem c7_grouping_partition_witness :
    (alookup (group_by_series [[("Product Code", "A1-1")], [("X", "Y")]]) "A1" =
      (if ([[("Product Code", "A1-1")], [("X", "Y")]] : List Row).filter
          (fun r => seriesOf r = "A1") = [] then none
       else some (([[("Product Code", "A1-1")], [("X", "Y")]] : List Row).filter
          (fun r => seriesOf r = "A1")))) ∧
    alookup (group_by_series [[("Product Code", "A1-1")], [("X", "Y")]]) "" = none ∧
    ((group_by_series [[("Product Code", "A1-1")], [("X", "Y")]]).map (fun g => g.1)).Nodup :=
  c7_grouping_partition [[("Product Code", "A1-1")], [("X", "Y")]] "A1" (by decide)

/-- **C8, counterexample.** When the first row's product-name column is
present but empty, the derived title is the empty string, not
`"Series " + seriesKey` — `dict.get`'s default applies only to an absent
key. -/
theorem c8_counterexample :
    titleOf "S" [("Product Name", "")] = "" ∧
    titleOf "S" [("Product Name", "")] ≠ "Series " ++ "S" := by
  refine ⟨by decide, by decide⟩

/-- **C8 (amended).** For every non-empty series group, the derived title
equals the first row's product-name value whenever that column is present
(even when its value is empty), and `"Series " + seriesKey` exactly when the
column is absent. -/
theorem c8_amended_title_derivation (series : String) (first : Row) :
    (pyGet first "Product Name" = none → titleOf series first = "Series " ++ series) ∧
    (∀ v, pyGet first "Product Name" = some v → titleOf series first = v) := by
  constructor
  · intro h
    unfold titleOf
    rw [h]
  · intro v h
    unfold titleOf
    rw [h]

/-- **C8, witness.** Both branches of the amended title rule at concrete
rows. -/
theorem c8_amended_title_derivation_witness :
    titleOf "S" [("Other", "x")] = "Series " ++ "S" ∧
    titleOf "S" [("Product Name", "N")] = "N" :=
  ⟨(c8_amended_title_derivation "S" [("Other", "x")]).1 (by decide),
   (c8_amended_title_derivation "S" [("Product Name", "N")]).2 "N" (by decide)⟩

/-- **C9, counterexample.** A row holding the four reserved columns plus two
extra non-empty columns whose names normalise to the same key (`A B` and
`A-B` both become `a_b`) yields one metafield entry, not the two the claim
requires. -/
theorem c9_counterexample :
    (([("Product Series Code", "S"), ("Product Code", "C"), ("Product Name", "N"),
        ("Euros", "5"), ("A B", "x"), ("A-B", "y")] : Row).filter
      (fun kv => !(RESERVED.contains kv.1))).length = 2 ∧
    (∀ kv ∈ ([("Product Series Code", "S"), ("Product Code", "C"), ("Product Name", "N"),
        ("Euros", "5"), ("A B", "x"), ("A-B", "y")] : Row), pyStrip kv.2 ≠ "") ∧
    (buildMetafields [("Product Series Code", "S"), ("Product Code", "C"), ("Product Name", "N"),
        ("Euros", "5"), ("A B", "x"), ("A-B", "y")]).length = 1 := by
  refine ⟨by decide, by decide, by decide⟩

/-- **C9 (amended).** When the qualifying columns of a row (non-reserved
name, truthy value with non-blank strip) have pairwise distinct normalised
keys, the metafield set contains exactly one entry per qualifying column, in
column order, keyed by the normaliser output and valued by the stripped
value; and every entry's value is non-empty (empty values are never sent).
Columns with colliding normalised keys collapse into one entry (last value
wins), which is the only deviation from the original claim. -/
theorem c9_amended_metafield_entries (item : Row)
    (hdist : ((item.filter qualCol).map (fun kv => normalizeKey kv.1)).Nodup) :
    buildMetafields item =
      (item.filter qualCol).map (fun kv => (normalizeKey kv.1, pyStrip kv.2)) ∧
    ∀ p ∈ buildMetafields item, p.2 ≠ "" := by
  have hmain : buildMetafields item =
      (item.filter qualCol).map (fun kv => (normalizeKey kv.1, pyStrip kv.2)) := by
    unfold buildMetafields
    rw [buildMetafields_fold item [] (by simpa using hdist)]
    rfl
  refine ⟨hmain, ?_⟩
  intro p hp
  rw [hmain] at hp
  rcases List.mem_map.mp hp with ⟨kv, hkv, hpkv⟩
  have hq : qualCol kv = true := (List.mem_filter.mp hkv).2
  have : pyStrip kv.2 ≠ "" := by
    unfold qualCol at hq
    simp only [Bool.and_eq_true, decide_eq_true_eq] at hq
    exact hq.1.2
  rw [← hpkv]
  exact this

/-- **C9, witness.** The amended theorem at a row with the four reserved
columns plus two extra columns with distinct normalised keys: exactly two
entries, both non-empty. -/
theorem c9_amended_metafield_entries_witness :
    buildMetafields [("Product Series Code", "S"), ("Product Code", "C"), ("Product Name", "N"),
        ("Euros", "5"), ("Material", "PCD"), ("Bore", "30")] =
      (([("Product Series Code", "S"), ("Product Code", "C"), ("Product Name", "N"),
        ("Euros", "5"), ("Material", "PCD"), ("Bore", "30")] : Row).filter qualCol).map
          (fun kv => (normalizeKey kv.1, pyStrip kv.2)) ∧
    ∀ p ∈ buildMetafields [("Product Series Code", "S"), ("Product Code", "C"),
        ("Product Name", "N"), ("Euros", "5"), ("Material", "PCD"), ("Bore", "30")],
      p.2 ≠ "" :=
  c9_amended_metafield_entries
    [("Product Series Code", "S"), ("Product Code", "C"), ("Product Name", "N"),
      ("Euros", "5"), ("Material", "PCD"), ("Bore", "30")] (by decide)

/-- **C10, counterexample.** A row whose explicit series column is empty and
whose item code is the empty string (which contains neither `-` nor `/`) is
dropped: grouping produces no group at all, contradicting the claim that
such a row is never dropped. -/
theorem c10_counterexample :
    (pyGet [("X", "Y")] "Product Series Code").getD "" = "" ∧
    pyContains ((pyGet [("X", "Y")] "Product Code").getD "") '-' = false ∧
    pyContains ((pyGet [("X", "Y")] "Product Code").getD "") '/' = false ∧
    seriesOf [("X", "Y")] = "" ∧
    group_by_series [[("X", "Y")]] = [] := by
  refine ⟨by decide, by decide, by decide, by decide, by decide⟩

/-- **C10 (amended).** For every row whose explicit series column is empty
and whose item code is non-empty and contains neither `-` nor `/`, the row
is not dropped: its series key is the whole item code and the row appears in
the group keyed by it. -/
theorem c10_amended_full_code_key (items : List Row) (item : Row) (hmem : item ∈ items)
    (hexp : (pyGet item "Product Series Code").getD "" = "")
    (hdash : pyContains ((pyGet item "Product Code").getD "") '-' = false)
    (hslash : pyContains ((pyGet item "Product Code").getD "") '/' = false)
    (hcode : (pyGet item "Product Code").getD "" ≠ "") :
    ∃ l, alookup (group_by_series items) ((pyGet item "Product Code").getD "") = some l ∧
      item ∈ l := by
  have hs : seriesOf item = (pyGet item "Product Code").getD "" := by
    unfold seriesOf
    rw [hexp]
    simp [hdash, hslash]
  have hfil : item ∈ items.filter (fun r => seriesOf r = (pyGet item "Product Code").getD "") :=
    List.mem_filter.mpr ⟨hmem, by simp [hs]⟩
  refine ⟨items.filter (fun r => seriesOf r = (pyGet item "Product Code").getD ""), ?_, hfil⟩
  rw [group_by_series, group_fold_lookup items [] _ hcode, alookup_nil]
  rcases hf : items.filter (fun r => seriesOf r = (pyGet item "Product Code").getD "") with _ | ⟨r, f⟩
  · rw [hf] at hfil
    cases hfil
  · simp [combineG]

/-- **C10, witness.** The amended theorem applied to a delimiter-free item
code. -/
theorem c10_amended_full_code_key_witness :
    ∃ l, alookup (group_by_series [[("Product Code", "8L.1001")]])
        ((pyGet [("Product Code", "8L.1001")] "Product Code").getD "") = some l ∧
      [("Product Code", "8L.1001")] ∈ l :=
  c10_amended_full_code_key [[("Product Code", "8L.1001")]] [("Product Code", "8L.1001")]
    (by decide) (by decide) (by decide) (by decide) (by decide)

end ShopUploader
